import Mathlib

/-
  Shallow embedding of the jarakey-shared-middleware resilience primitives:
  circuit breaker (middleware/circuit_breaker.go), retry executor
  (middleware/retry.go), health aggregator (middleware/health_check.go) and
  correlation context helpers (middleware/correlation.go).

  Modelling conventions:
  * Go `time.Time` instants and `time.Duration` values are modelled as `Int`
    (an abstract clock in arbitrary units); `time.Since(t)` at instant `now`
    is `now - t`; the zero value `time.Time{}` is `0`.
  * Go `error` values are modelled by the inductive `GoError`; a Go `error`
    variable is `Option GoError` (`none` = nil).
  * Functions that in Go read the wall clock or run a callback take the
    clock reading / the callback's outcome as an explicit argument.
  * Mutation of a struct behind a mutex becomes explicit state passing; the
    mutex itself has no observable effect on the sequential semantics the
    claims are about.
-/

namespace Middleware

/-- Go error values. `breakerOpen` is the error built by
`fmt.Errorf("circuit breaker is %s", cb.state.String())` in Execute;
`retryable` is the RetryableError struct of retry.go; `errorf` stands for
any other error value produced by a wrapped operation. -/
inductive GoError where
  | breakerOpen (state : String)
  | errorf (msg : String)
  | retryable (statusCode : Int) (msg : String)
deriving DecidableEq, Repr

/-! ## Circuit breaker (middleware/circuit_breaker.go) -/

/-- CircuitBreakerState: the three states of circuit_breaker.go. -/
inductive CircuitBreakerState where
  | StateClosed
  | StateOpen
  | StateHalfOpen
deriving DecidableEq, Repr

open CircuitBreakerState

/-- The `String()` method of `CircuitBreakerState`. -/
def CircuitBreakerState.toName : CircuitBreakerState → String
  | StateClosed => "CLOSED"
  | StateOpen => "OPEN"
  | StateHalfOpen => "HALF_OPEN"

/-- CircuitBreakerConfig from circuit_breaker.go (all Go ints/Durations as Int). -/
structure CircuitBreakerConfig where
  maxFailures : Int
  timeout : Int
  resetTimeout : Int
  monitorTimeout : Int
deriving DecidableEq, Repr

/-- The mutable fields of the `CircuitBreaker` struct. -/
structure CircuitBreaker where
  config : CircuitBreakerConfig
  state : CircuitBreakerState
  failures : Int
  lastError : Option GoError
  lastFailure : Int
deriving DecidableEq, Repr

/-- NewCircuitBreaker with a non-nil config: state CLOSED, zero counters. -/
def NewCircuitBreaker (config : CircuitBreakerConfig) : CircuitBreaker :=
  { config := config
    state := StateClosed
    failures := 0
    lastError := none
    lastFailure := 0 }

/-- `Ready()` at clock instant `now`: performs the lazy OPEN -> HALF_OPEN
transition when `time.Since(lastFailure) >= ResetTimeout`, then reports
whether the state differs from OPEN. Returns the boolean together with the
updated breaker. -/
def Ready (cb : CircuitBreaker) (now : Int) : Bool × CircuitBreaker :=
  let cb' :=
    if cb.state = StateOpen ∧ now - cb.lastFailure ≥ cb.config.resetTimeout then
      { cb with state := StateHalfOpen }
    else cb
  (decide (cb'.state ≠ StateOpen), cb')

/-- `recordResult(err)` at clock instant `now` (the value `time.Now()` would
return inside the call): a non-nil error increments `failures`, stores the
error and timestamp, and opens the breaker once `failures >= MaxFailures`;
a nil error resets the counter and closes a HALF_OPEN breaker. -/
def recordResult (cb : CircuitBreaker) (err : Option GoError) (now : Int) :
    CircuitBreaker :=
  match err with
  | some e =>
    let cb' := { cb with
      failures := cb.failures + 1
      lastError := some e
      lastFailure := now }
    if cb'.failures ≥ cb'.config.maxFailures then { cb' with state := StateOpen }
    else cb'
  | none =>
    let cb' := { cb with failures := 0, lastError := none }
    if cb'.state = StateHalfOpen then { cb' with state := StateClosed } else cb'

/-- `Execute(ctx, fn)`: `fnErr` is the error `fn` would return when invoked.
The result is (returned error, updated breaker, number of invocations of
`fn`). When `Ready()` is false the wrapped function is never called and the
error is `fmt.Errorf("circuit breaker is %s", cb.state.String())`. -/
def Execute (cb : CircuitBreaker) (now : Int) (fnErr : Option GoError) :
    Option GoError × CircuitBreaker × Nat :=
  let r := Ready cb now
  if r.1 then
    (fnErr, recordResult r.2 fnErr now, 1)
  else
    (some (GoError.breakerOpen r.2.state.toName), r.2, 0)

/-- `ExecuteWithResult(ctx, fn)`: like `Execute` but threading through the
result value `fn` would return (`none` models the `nil` returned in the
breaker-open branch). -/
def ExecuteWithResult {ρ : Type} (cb : CircuitBreaker) (now : Int)
    (fnRes : ρ) (fnErr : Option GoError) :
    Option ρ × Option GoError × CircuitBreaker × Nat :=
  let r := Ready cb now
  if r.1 then
    (some fnRes, fnErr, recordResult r.2 fnErr now, 1)
  else
    (none, some (GoError.breakerOpen r.2.state.toName), r.2, 0)

/-- A sequence of consecutive recorded failures: each element is the error
and the instant at which `recordResult` is called with it. -/
def applyFailures (cb : CircuitBreaker) (l : List (GoError × Int)) :
    CircuitBreaker :=
  l.foldl (fun cb' p => recordResult cb' (some p.1) p.2) cb

/-! ## Retry executor (middleware/retry.go) -/

/-- RetryConfig from retry.go. `backoffFactor` is a Go float64, modelled as
an exact rational: all claims about it involve only values on which float64
arithmetic is exact. -/
structure RetryConfig where
  maxAttempts : Int
  initialDelay : Int
  maxDelay : Int
  backoffFactor : ℚ
  retryableErrors : List Int
  jitter : Bool

/-- DefaultRetryConfig from retry.go. -/
def DefaultRetryConfig : RetryConfig :=
  { maxAttempts := 3
    initialDelay := 100000000
    maxDelay := 30000000000
    backoffFactor := 2
    retryableErrors := [408, 429, 500, 502, 503, 504]
    jitter := true }

/-- `IsRetryableError`: true iff the error is a `*RetryableError` whose
status code occurs in the configured retryable set; any other error shape
is not retryable. -/
def IsRetryableError (rc : RetryConfig) (err : GoError) : Bool :=
  match err with
  | GoError.retryable code _ => rc.retryableErrors.contains code
  | _ => false

/-- The value returned by `Retry`: `ok` is a nil error, `failed e` is the
operation's own non-retryable error returned as-is, `exceeded` is the
`fmt.Errorf("max retry attempts (%d) exceeded: %w", ...)` wrapper. -/
inductive RetryOutcome where
  | ok
  | failed (e : GoError)
  | exceeded (maxAttempts : Int) (last : Option GoError)
deriving DecidableEq, Repr

/-- The loop body of `Retry`. `fn i` is the error the operation returns on
its i-th invocation; `fuel` is the number of loop iterations left
(`MaxAttempts - attempt`), so `fuel = 1` means `attempt == MaxAttempts-1`,
the iteration whose failure breaks out of the loop before the retryability
check. The context is modelled as never cancelled, and the backoff sleeps
(which do not influence the returned value) are elided. Returns the outcome
together with the number of invocations of `fn`. -/
def retryLoop (rc : RetryConfig) (fn : Nat → Option GoError) :
    Nat → Nat → Option GoError → RetryOutcome × Nat
  | _, 0, lastErr => (RetryOutcome.exceeded rc.maxAttempts lastErr, 0)
  | attempt, fuel + 1, _ =>
    match fn attempt with
    | none => (RetryOutcome.ok, 1)
    | some e =>
      if fuel = 0 then (RetryOutcome.exceeded rc.maxAttempts (some e), 1)
      else if IsRetryableError rc e then
        let r := retryLoop rc fn (attempt + 1) fuel (some e)
        (r.1, r.2 + 1)
      else (RetryOutcome.failed e, 1)

/-- `Retry(ctx, fn)` with a never-cancelled context. -/
def Retry (rc : RetryConfig) (fn : Nat → Option GoError) : RetryOutcome × Nat :=
  retryLoop rc fn 0 rc.maxAttempts.toNat none

/-- `time.Duration(f)` for a float64 `f`: conversion to int64 truncates
toward zero. -/
def durationOfFloat (q : ℚ) : Int :=
  if 0 ≤ q then ⌊q⌋ else ⌈q⌉

/-- `ExponentialBackoff(attempt, baseDelay, factor)`:
`time.Duration(float64(baseDelay) * math.Pow(factor, float64(attempt)))`.
The float64 arithmetic is modelled exactly over ℚ; it is exact for the
inputs any claim mentions. -/
def ExponentialBackoff (attempt : Nat) (baseDelay : Int) (factor : ℚ) : Int :=
  durationOfFloat ((baseDelay : ℚ) * factor ^ attempt)

/-- `LinearBackoff(attempt, baseDelay)`. -/
def LinearBackoff (attempt : Nat) (baseDelay : Int) : Int :=
  baseDelay * ((attempt : Int) + 1)

/-- `ConstantBackoff(attempt, baseDelay)`. -/
def ConstantBackoff (_attempt : Nat) (baseDelay : Int) : Int :=
  baseDelay

/-- The `fib, prev` pair of FibonacciBackoff after n loop iterations,
starting from `fib = 1, prev = 1`. -/
def fibIter : Nat → Int × Int
  | 0 => (1, 1)
  | n + 1 =>
    let p := fibIter n
    (p.1 + p.2, p.1)

/-- `FibonacciBackoff(attempt, baseDelay)`: attempts 0 and 1 return the base
delay; attempt n ≥ 2 runs the loop for i = 2..n, i.e. n-1 iterations. -/
def FibonacciBackoff (attempt : Nat) (baseDelay : Int) : Int :=
  if attempt ≤ 1 then baseDelay
  else baseDelay * (fibIter (attempt - 1)).1

/-! ## Health aggregator (middleware/health_check.go) -/

/-- HealthStatus from health_check.go. -/
inductive HealthStatus where
  | healthy
  | degraded
  | unhealthy
deriving DecidableEq, Repr

/-- DependencyHealth from health_check.go. The `Details` field
(`map[string]interface{}`, an arbitrary JSON object no claim mentions) is
not modelled. -/
structure DependencyHealth where
  name : String
  status : HealthStatus
  message : String
  timestamp : Int
deriving DecidableEq, Repr

/-- What one registered check contributes to one aggregation pass: it either
completes before the shared deadline (returning a `*DependencyHealth` that
may be nil) or it is still running when the deadline fires. -/
inductive CheckOutcome where
  | completed (result : Option DependencyHealth)
  | timedOut
deriving DecidableEq, Repr

/-- The per-check select block of `CheckHealth`: a completed non-nil result
gets `Name` overwritten with the registration name and a zero `Timestamp`
replaced by the current time; a completed nil result and a timeout are
converted into UNHEALTHY records with explanatory messages. `now` models the
goroutine's `time.Now()` reading. -/
def resolveCheck (nm : String) (oc : CheckOutcome) (now : Int) :
    DependencyHealth :=
  match oc with
  | CheckOutcome.completed (some r) =>
    { r with
        name := nm
        timestamp := if r.timestamp = 0 then now else r.timestamp }
  | CheckOutcome.completed none =>
    { name := nm
      status := HealthStatus.unhealthy
      message := "Health check returned nil"
      timestamp := now }
  | CheckOutcome.timedOut =>
    { name := nm
      status := HealthStatus.unhealthy
      message := "Health check timed out"
      timestamp := now }

/-- One step of the overall-status switch in `CheckHealth`'s collection
loop. -/
def foldStatus (acc : HealthStatus) (s : HealthStatus) : HealthStatus :=
  match s with
  | HealthStatus.unhealthy => HealthStatus.unhealthy
  | HealthStatus.degraded =>
    if acc ≠ HealthStatus.unhealthy then HealthStatus.degraded else acc
  | HealthStatus.healthy => acc

/-- `countStatus(dependencies, status)` from health_check.go. -/
def countStatus (deps : List (String × DependencyHealth))
    (status : HealthStatus) : Nat :=
  (deps.filter (fun p => p.2.status == status)).length

/-- The `map[string]interface{}` returned by `CheckHealth`, with its fixed
keys as fields. -/
structure HealthSnapshot where
  service : String
  status : HealthStatus
  timestamp : Int
  dependencies : List (String × DependencyHealth)
  totalChecks : Nat
  healthyCount : Nat
  degradedCount : Nat
  unhealthyCount : Nat
deriving DecidableEq, Repr

/-- `CheckHealth(ctx)`: `checks` is the snapshot of the registry taken under
the read lock (one entry per registered name, therefore with distinct
names), paired with each check's outcome for this pass; `now` models the
clock. The concurrent fan-out/fan-in is collapsed to a traversal: every
check contributes exactly one record to the results channel, the
`dependencies` map is keyed by the record's `Name` (the registration name),
and both the overall-status fold and the counts are order-insensitive, so
the channel's arrival order is abstracted as the list order. -/
def CheckHealth (serviceName : String)
    (checks : List (String × CheckOutcome)) (now : Int) : HealthSnapshot :=
  let deps := checks.map (fun p => (p.1, resolveCheck p.1 p.2 now))
  { service := serviceName
    status := (deps.map (fun p => p.2.status)).foldl foldStatus HealthStatus.healthy
    timestamp := now
    dependencies := deps
    totalChecks := checks.length
    healthyCount := countStatus deps HealthStatus.healthy
    degradedCount := countStatus deps HealthStatus.degraded
    unhealthyCount := countStatus deps HealthStatus.unhealthy }

/-! ## Correlation context (middleware/correlation.go) -/

/-- CorrelationContext from correlation.go. -/
structure CorrelationContext where
  correlationID : String
  requestID : String
  traceID : String
  spanID : String
  userID : String
  sessionID : String
deriving DecidableEq, Repr

/-- A `context.Context` as far as the correlation helpers observe it: it
either carries a `*CorrelationContext` under the "correlation_context" key
or it does not. The pointer is modelled as an address into an explicit heap
`Nat → CorrelationContext`, because `SetUserID`/`SetSessionID` write through
that pointer. -/
structure GoContext where
  corrAddr : Option Nat
deriving DecidableEq, Repr

/-- Writing one heap cell. -/
def updateHeap (h : Nat → CorrelationContext) (a : Nat)
    (cc : CorrelationContext) : Nat → CorrelationContext :=
  fun n => if n = a then cc else h n

/-- `GetUserID(ctx)`: dereferences the attached pointer, empty string when
no context is attached. -/
def GetUserID (h : Nat → CorrelationContext) (ctx : GoContext) : String :=
  match ctx.corrAddr with
  | some a => (h a).userID
  | none => ""

/-- `GetSessionID(ctx)`. -/
def GetSessionID (h : Nat → CorrelationContext) (ctx : GoContext) : String :=
  match ctx.corrAddr with
  | some a => (h a).sessionID
  | none => ""

/-- `SetUserID(ctx, userID)`: when a correlation context is attached, the Go
code assigns `corrCtx.UserID = userID` through the shared pointer and wraps
the same pointer into the returned context; with no attached context it
returns `ctx` unchanged. Returns (updated heap, returned context). -/
def SetUserID (h : Nat → CorrelationContext) (ctx : GoContext)
    (userID : String) : (Nat → CorrelationContext) × GoContext :=
  match ctx.corrAddr with
  | some a =>
    (updateHeap h a { h a with userID := userID }, { corrAddr := some a })
  | none => (h, ctx)

/-- `SetSessionID(ctx, sessionID)`: same shape as `SetUserID`. -/
def SetSessionID (h : Nat → CorrelationContext) (ctx : GoContext)
    (sessionID : String) : (Nat → CorrelationContext) × GoContext :=
  match ctx.corrAddr with
  | some a =>
    (updateHeap h a { h a with sessionID := sessionID }, { corrAddr := some a })
  | none => (h, ctx)

/-- The character class kept by the `strings.Map` call in
`SanitizeCorrelationID`. -/
def allowedChar (c : Char) : Bool :=
  (decide ('0' ≤ c) && decide (c ≤ '9')) ||
  (decide ('a' ≤ c) && decide (c ≤ 'z')) ||
  (decide ('A' ≤ c) && decide (c ≤ 'Z')) ||
  c == '-' || c == '_'

/-- `SanitizeCorrelationID`: empty input returned as-is; input longer than
64 bytes truncated to its first 64 bytes plus "..." (returning early,
before any character stripping); otherwise characters outside
`[A-Za-z0-9_-]` are removed. Go byte indexing/length coincide with
character indexing/length on ASCII, which is how the model reads them. -/
def SanitizeCorrelationID (s : String) : String :=
  if s = "" then ""
  else if s.length > 64 then String.mk (s.toList.take 64) ++ "..."
  else String.mk (s.toList.filter allowedChar)

/-! ## Concrete fixtures used by witnesses and counterexamples -/

/-- An OPEN breaker (maxFailures 1, resetTimeout 60, last failure at 0). -/
def openBreaker : CircuitBreaker :=
  { config := ⟨1, 0, 60, 0⟩
    state := CircuitBreakerState.StateOpen
    failures := 1
    lastError := some (GoError.errorf "x")
    lastFailure := 0 }

/-- A HALF_OPEN breaker with a stale failure count. -/
def halfOpenBreaker : CircuitBreaker :=
  { config := ⟨1, 0, 60, 0⟩
    state := CircuitBreakerState.StateHalfOpen
    failures := 1
    lastError := some (GoError.errorf "x")
    lastFailure := 0 }

/-- A heap whose every cell is a correlation context with correlation ID
"test-id" and all other fields empty, and a Go context holding a pointer to
cell 0 of it. -/
def corrHeap0 : Nat → CorrelationContext :=
  fun _ => { correlationID := "test-id"
             requestID := ""
             traceID := ""
             spanID := ""
             userID := ""
             sessionID := "" }

/-- The context carrying the pointer to cell 0. -/
def ctx0 : GoContext := { corrAddr := some 0 }

/-- A context with no correlation context attached. -/
def ctxNone : GoContext := { corrAddr := none }

/-- DefaultRetryConfig restricted to a single attempt. -/
def rcOne : RetryConfig :=
  { maxAttempts := 1
    initialDelay := 100000000
    maxDelay := 30000000000
    backoffFactor := 2
    retryableErrors := [408, 429, 500, 502, 503, 504]
    jitter := true }

/-- A registry pass with one timed-out check and one nil-returning check. -/
def checksW : List (String × CheckOutcome) :=
  [("db", CheckOutcome.timedOut), ("redis", CheckOutcome.completed none)]

/-- A healthy record as a check could return it (zero timestamp, wrong name). -/
def apiRecord : DependencyHealth :=
  { name := ""
    status := HealthStatus.healthy
    message := "ok"
    timestamp := 0 }

/-- A registry pass with a timeout, a nil result and a completed check. -/
def checksW3 : List (String × CheckOutcome) :=
  [("db", CheckOutcome.timedOut), ("redis", CheckOutcome.completed none),
   ("api", CheckOutcome.completed (some apiRecord))]

/-! ## Lemmas and claim theorems -/

lemma applyFailures_cons (cb : CircuitBreaker) (p : GoError × Int)
    (l : List (GoError × Int)) :
    applyFailures cb (p :: l) =
      applyFailures (recordResult cb (some p.1) p.2) l := rfl

lemma recordResult_some_failures (cb : CircuitBreaker) (e : GoError) (t : Int) :
    (recordResult cb (some e) t).failures = cb.failures + 1 := by
  unfold recordResult
  dsimp only
  split <;> rfl

lemma recordResult_some_config (cb : CircuitBreaker) (e : GoError) (t : Int) :
    (recordResult cb (some e) t).config = cb.config := by
  unfold recordResult
  dsimp only
  split <;> rfl

lemma recordResult_some_lastFailure (cb : CircuitBreaker) (e : GoError) (t : Int) :
    (recordResult cb (some e) t).lastFailure = t := by
  unfold recordResult
  dsimp only
  split <;> rfl

lemma recordResult_some_state (cb : CircuitBreaker) (e : GoError) (t : Int) :
    (recordResult cb (some e) t).state =
      if cb.failures + 1 ≥ cb.config.maxFailures then StateOpen else cb.state := by
  unfold recordResult
  dsimp only
  split <;> simp_all

/-- While the running failure count stays strictly below the threshold, a
breaker that starts CLOSED remains CLOSED and just accumulates failures. -/
lemma applyFailures_stays_closed (l : List (GoError × Int)) :
    ∀ cb : CircuitBreaker, cb.state = StateClosed →
      cb.failures + (l.length : Int) < cb.config.maxFailures →
      (applyFailures cb l).state = StateClosed ∧
      (applyFailures cb l).failures = cb.failures + (l.length : Int) ∧
      (applyFailures cb l).config = cb.config := by
  induction l with
  | nil =>
    intro cb hst _
    refine ⟨?_, ?_, rfl⟩ <;> simp [applyFailures, hst]
  | cons p tl ih =>
    intro cb hst hlt
    simp only [List.length_cons] at hlt
    have hnot : ¬ cb.failures + 1 ≥ cb.config.maxFailures := by
      have hnn : (0 : Int) ≤ (tl.length : Int) := Int.natCast_nonneg _
      omega
    have hstate : (recordResult cb (some p.1) p.2).state = StateClosed := by
      rw [recordResult_some_state, if_neg hnot, hst]
    have hfail := recordResult_some_failures cb p.1 p.2
    have hcfg := recordResult_some_config cb p.1 p.2
    rw [applyFailures_cons]
    obtain ⟨h1, h2, h3⟩ := ih (recordResult cb (some p.1) p.2) hstate
      (by rw [hfail, hcfg]; omega)
    refine ⟨h1, ?_, by rw [h3, hcfg]⟩
    rw [h2, hfail]
    simp only [List.length_cons]
    push_cast
    ring

/-- When the running failure count reaches the threshold exactly at the last
element, the breaker ends OPEN. -/
lemma applyFailures_opens (l : List (GoError × Int)) :
    ∀ cb : CircuitBreaker, cb.state = StateClosed → l ≠ [] →
      cb.failures + (l.length : Int) = cb.config.maxFailures →
      (applyFailures cb l).state = StateOpen := by
  induction l with
  | nil => intro cb _ hne _; exact absurd rfl hne
  | cons p tl ih =>
    intro cb hst _ heq
    simp only [List.length_cons] at heq
    rw [applyFailures_cons]
    by_cases htl : tl = []
    · subst htl
      have hmax : cb.failures + 1 ≥ cb.config.maxFailures := by
        simp at heq
        omega
      have hstate : (recordResult cb (some p.1) p.2).state = StateOpen := by
        rw [recordResult_some_state, if_pos hmax]
      simpa [applyFailures] using hstate
    · have hlen1 : (1 : Int) ≤ (tl.length : Int) := by
        have h1 : 1 ≤ tl.length :=
          Nat.one_le_iff_ne_zero.mpr (fun h => htl (List.length_eq_zero.mp h))
        exact_mod_cast h1
      have hnot : ¬ cb.failures + 1 ≥ cb.config.maxFailures := by omega
      have hstate : (recordResult cb (some p.1) p.2).state = StateClosed := by
        rw [recordResult_some_state, if_neg hnot, hst]
      have hfail := recordResult_some_failures cb p.1 p.2
      have hcfg := recordResult_some_config cb p.1 p.2
      exact ih (recordResult cb (some p.1) p.2) hstate htl
        (by rw [hfail, hcfg]; omega)

lemma applyFailures_config (l : List (GoError × Int)) :
    ∀ cb : CircuitBreaker, (applyFailures cb l).config = cb.config := by
  induction l with
  | nil => intro cb; rfl
  | cons p tl ih =>
    intro cb
    rw [applyFailures_cons, ih, recordResult_some_config]

lemma Ready_of_closed (cb : CircuitBreaker) (now : Int)
    (h : cb.state = StateClosed) : Ready cb now = (true, cb) := by
  simp [Ready, h]

lemma Ready_open_not_elapsed (cb : CircuitBreaker) (now : Int)
    (h : cb.state = StateOpen)
    (h2 : ¬ now - cb.lastFailure ≥ cb.config.resetTimeout) :
    Ready cb now = (false, cb) := by
  simp [Ready, h, h2]

lemma Ready_open_elapsed (cb : CircuitBreaker) (now : Int)
    (h : cb.state = StateOpen)
    (h2 : now - cb.lastFailure ≥ cb.config.resetTimeout) :
    Ready cb now = (true, { cb with state := StateHalfOpen }) := by
  simp [Ready, h, h2]

lemma Ready_false_inv (cb : CircuitBreaker) (now : Int)
    (h : (Ready cb now).1 = false) :
    (Ready cb now).2 = cb ∧ cb.state = StateOpen := by
  by_cases hc : cb.state = StateOpen ∧ now - cb.lastFailure ≥ cb.config.resetTimeout
  · simp [Ready, hc] at h
  · refine ⟨by simp [Ready, hc], ?_⟩
    by_contra hop
    simp [Ready, hc, hop] at h

/-- Claim C1: for every breaker created with max-failures N ≥ 1, starting
CLOSED with failure count 0, after exactly N consecutive recorded failures
(and while the open-duration since the last failure has not elapsed)
`Ready()` returns false, and after only N-1 consecutive failures `Ready()`
still returns true. -/
theorem breaker_opens_after_exactly_maxFailures
    (cfg : CircuitBreakerConfig) (N : Nat) (hN : 1 ≤ N)
    (hmax : cfg.maxFailures = (N : Int))
    (lN : List (GoError × Int)) (hlenN : lN.length = N)
    (lN1 : List (GoError × Int)) (hlenN1 : lN1.length = N - 1)
    (now now' : Int)
    (hElapsed : now - (applyFailures (NewCircuitBreaker cfg) lN).lastFailure <
      cfg.resetTimeout) :
    (Ready (applyFailures (NewCircuitBreaker cfg) lN) now).1 = false ∧
    (Ready (applyFailures (NewCircuitBreaker cfg) lN1) now').1 = true := by
  constructor
  · have hne : lN ≠ [] := by
      intro h
      rw [h] at hlenN
      simp at hlenN
      omega
    have hopen : (applyFailures (NewCircuitBreaker cfg) lN).state = StateOpen := by
      apply applyFailures_opens lN (NewCircuitBreaker cfg) rfl hne
      simp [NewCircuitBreaker, hmax, hlenN]
    have hcfg := applyFailures_config lN (NewCircuitBreaker cfg)
    rw [Ready_open_not_elapsed _ _ hopen
      (by rw [hcfg]
          have hrt : (NewCircuitBreaker cfg).config.resetTimeout =
            cfg.resetTimeout := rfl
          rw [hrt]
          omega)]
  · have hclosed : (applyFailures (NewCircuitBreaker cfg) lN1).state = StateClosed := by
      refine (applyFailures_stays_closed lN1 (NewCircuitBreaker cfg) rfl ?_).1
      simp [NewCircuitBreaker, hmax, hlenN1]
      omega
    rw [Ready_of_closed _ _ hclosed]

/-- Witness for C1 at N = 2, resetTimeout = 60: two failures at instants 5
and 10 leave the breaker refusing at instant 20, one failure leaves it
ready. -/
theorem breaker_opens_after_exactly_maxFailures_witness :
    (Ready (applyFailures (NewCircuitBreaker ⟨2, 0, 60, 0⟩)
      [(GoError.errorf "x", 5), (GoError.errorf "y", 10)]) 20).1 = false ∧
    (Ready (applyFailures (NewCircuitBreaker ⟨2, 0, 60, 0⟩)
      [(GoError.errorf "x", 5)]) 0).1 = true :=
  breaker_opens_after_exactly_maxFailures ⟨2, 0, 60, 0⟩ 2 (by norm_num) rfl
    [(GoError.errorf "x", 5), (GoError.errorf "y", 10)] rfl
    [(GoError.errorf "x", 5)] rfl 20 0 (by decide)

/-- Claim C2: while a breaker is OPEN, `Ready()` returns false (leaving the
breaker untouched) as long as the elapsed time since the last failure is
below the open-duration; once it has elapsed, `Ready()` transitions the
breaker to HALF_OPEN and returns true; and a single success recorded while
HALF_OPEN yields state CLOSED with failure count 0. -/
theorem breaker_open_halfopen_closed_cycle
    (cb : CircuitBreaker) (now tSucc : Int) (h : cb.state = StateOpen) :
    (now - cb.lastFailure < cb.config.resetTimeout →
      Ready cb now = (false, cb)) ∧
    (now - cb.lastFailure ≥ cb.config.resetTimeout →
      (Ready cb now).1 = true ∧ (Ready cb now).2.state = StateHalfOpen) ∧
    (∀ cb' : CircuitBreaker, cb'.state = StateHalfOpen →
      (recordResult cb' none tSucc).state = StateClosed ∧
      (recordResult cb' none tSucc).failures = 0) := by
  refine ⟨fun hlt => Ready_open_not_elapsed cb now h (by omega), ?_, ?_⟩
  · intro hge
    rw [Ready_open_elapsed cb now h hge]
    exact ⟨rfl, rfl⟩
  · intro cb' h'
    constructor <;> simp [recordResult, h']

/-- Witness for C2: a concrete OPEN breaker (last failure at 0,
resetTimeout 60) refuses at instant 10, probes at instant 60, and a
HALF_OPEN breaker closes with zero failures on a recorded success. -/
theorem breaker_open_halfopen_closed_cycle_witness :
    Ready openBreaker 10 = (false, openBreaker) ∧
    ((Ready openBreaker 60).1 = true ∧
      (Ready openBreaker 60).2.state = StateHalfOpen) ∧
    ((recordResult halfOpenBreaker none 7).state = StateClosed ∧
      (recordResult halfOpenBreaker none 7).failures = 0) := by
  refine ⟨?_, ?_, ?_⟩
  · exact (breaker_open_halfopen_closed_cycle openBreaker 10 7 rfl).1 (by decide)
  · exact (breaker_open_halfopen_closed_cycle openBreaker 60 7 rfl).2.1 (by decide)
  · exact (breaker_open_halfopen_closed_cycle openBreaker 60 7 rfl).2.2
      halfOpenBreaker rfl

/-- Claim C3: `Execute`/`ExecuteWithResult` refuse with the breaker-open
error and zero invocations of the operation when `Ready()` is false (leaving
the breaker exactly as it was), and otherwise invoke the operation exactly
once and hand back its own result and error values unchanged. -/
theorem execute_gates_and_passes_through {ρ : Type}
    (cb : CircuitBreaker) (now : Int) (fnRes : ρ) (fnErr : Option GoError) :
    Execute cb now fnErr =
      (if (Ready cb now).1 then fnErr
        else some (GoError.breakerOpen "OPEN"),
       if (Ready cb now).1 then recordResult (Ready cb now).2 fnErr now else cb,
       if (Ready cb now).1 then 1 else 0) ∧
    ExecuteWithResult cb now fnRes fnErr =
      (if (Ready cb now).1 then some fnRes else none,
       if (Ready cb now).1 then fnErr
        else some (GoError.breakerOpen "OPEN"),
       if (Ready cb now).1 then recordResult (Ready cb now).2 fnErr now else cb,
       if (Ready cb now).1 then 1 else 0) := by
  by_cases hr : (Ready cb now).1
  · constructor <;> simp [Execute, ExecuteWithResult, hr]
  · have hb := eq_false_of_ne_true hr
    obtain ⟨hfix, hopen⟩ := Ready_false_inv cb now hb
    have hst : (Ready cb now).2.state = StateOpen := by rw [hfix, hopen]
    constructor <;>
      simp [Execute, ExecuteWithResult, hb, hfix, hopen, hst,
        CircuitBreakerState.toName]

lemma foldl_foldStatus_char (l : List HealthStatus) :
    ∀ acc : HealthStatus, l.foldl foldStatus acc =
      if acc = HealthStatus.unhealthy ∨ HealthStatus.unhealthy ∈ l then
        HealthStatus.unhealthy
      else if acc = HealthStatus.degraded ∨ HealthStatus.degraded ∈ l then
        HealthStatus.degraded
      else acc := by
  induction l with
  | nil => intro acc; cases acc <;> simp
  | cons s tl ih =>
    intro acc
    rw [List.foldl_cons, ih]
    cases s <;> cases acc <;> simp [foldStatus, List.mem_cons]

/-- Claim C4: the overall status of a snapshot is the worst dependency
status: UNHEALTHY if any dependency record is UNHEALTHY, otherwise DEGRADED
if any record is DEGRADED, otherwise HEALTHY. -/
theorem checkHealth_overall_is_worst (sn : String)
    (checks : List (String × CheckOutcome)) (now : Int) :
    (CheckHealth sn checks now).status =
      (if ∃ p ∈ (CheckHealth sn checks now).dependencies,
          p.2.status = HealthStatus.unhealthy then HealthStatus.unhealthy
       else if ∃ p ∈ (CheckHealth sn checks now).dependencies,
          p.2.status = HealthStatus.degraded then HealthStatus.degraded
       else HealthStatus.healthy) := by
  have hdeps : (CheckHealth sn checks now).dependencies =
      checks.map (fun p => (p.1, resolveCheck p.1 p.2 now)) := rfl
  have hst : (CheckHealth sn checks now).status =
      ((checks.map (fun p => (p.1, resolveCheck p.1 p.2 now))).map
        (fun p => p.2.status)).foldl foldStatus HealthStatus.healthy := rfl
  rw [hdeps, hst, foldl_foldStatus_char]
  set dl := checks.map (fun p => (p.1, resolveCheck p.1 p.2 now)) with hdl
  have hmu : HealthStatus.unhealthy ∈ dl.map (fun p => p.2.status) ↔
      ∃ p ∈ dl, p.2.status = HealthStatus.unhealthy := by
    rw [List.mem_map]
  have hmd : HealthStatus.degraded ∈ dl.map (fun p => p.2.status) ↔
      ∃ p ∈ dl, p.2.status = HealthStatus.degraded := by
    rw [List.mem_map]
  by_cases hu : ∃ p ∈ dl, p.2.status = HealthStatus.unhealthy
  · rw [if_pos (Or.inr (hmu.mpr hu)), if_pos hu]
  · have hnu : ¬ (HealthStatus.healthy = HealthStatus.unhealthy ∨
        HealthStatus.unhealthy ∈ dl.map (fun p => p.2.status)) := by
      rintro (h | h)
      · exact absurd h (by decide)
      · exact hu (hmu.mp h)
    by_cases hd : ∃ p ∈ dl, p.2.status = HealthStatus.degraded
    · rw [if_neg hnu, if_pos (Or.inr (hmd.mpr hd)), if_neg hu, if_pos hd]
    · have hnd : ¬ (HealthStatus.healthy = HealthStatus.degraded ∨
          HealthStatus.degraded ∈ dl.map (fun p => p.2.status)) := by
        rintro (h | h)
        · exact absurd h (by decide)
        · exact hd (hmd.mp h)
      rw [if_neg hnu, if_neg hnd, if_neg hu, if_neg hd]

/-- Claim C5: `CheckHealth` always returns a complete snapshot (one record
per registered check) and never propagates a check's failure: a timed-out
check contributes an UNHEALTHY record with the timeout message for that one
dependency, and a check completing with a nil result contributes an
UNHEALTHY record with an explanatory message. -/
theorem checkHealth_isolates_check_failures (sn : String)
    (checks : List (String × CheckOutcome)) (now : Int) :
    (CheckHealth sn checks now).dependencies.length = checks.length ∧
    ∀ nm oc, (nm, oc) ∈ checks →
      ((nm, resolveCheck nm oc now) ∈ (CheckHealth sn checks now).dependencies ∧
       (oc = CheckOutcome.timedOut →
         resolveCheck nm oc now =
           { name := nm
             status := HealthStatus.unhealthy
             message := "Health check timed out"
             timestamp := now }) ∧
       (oc = CheckOutcome.completed none →
         resolveCheck nm oc now =
           { name := nm
             status := HealthStatus.unhealthy
             message := "Health check returned nil"
             timestamp := now })) := by
  constructor
  · simp [CheckHealth]
  · intro nm oc hmem
    refine ⟨?_, ?_, ?_⟩
    · have : (CheckHealth sn checks now).dependencies =
        checks.map (fun p => (p.1, resolveCheck p.1 p.2 now)) := rfl
      rw [this]
      exact List.mem_map.mpr ⟨(nm, oc), hmem, rfl⟩
    · intro h; subst h; rfl
    · intro h; subst h; rfl

/-- Witness for C5 on a concrete registry: the timed-out "db" check and the
nil-returning "redis" check each contribute their UNHEALTHY record. -/
theorem checkHealth_isolates_check_failures_witness :
    ("db", resolveCheck "db" CheckOutcome.timedOut 3) ∈
      (CheckHealth "svc" checksW 3).dependencies ∧
    resolveCheck "db" CheckOutcome.timedOut 3 =
      { name := "db"
        status := HealthStatus.unhealthy
        message := "Health check timed out"
        timestamp := 3 } ∧
    resolveCheck "redis" (CheckOutcome.completed none) 3 =
      { name := "redis"
        status := HealthStatus.unhealthy
        message := "Health check returned nil"
        timestamp := 3 } := by
  refine ⟨?_, ?_, ?_⟩
  · exact (((checkHealth_isolates_check_failures "svc" checksW 3).2 "db"
      CheckOutcome.timedOut (by simp [checksW]))).1
  · exact (((checkHealth_isolates_check_failures "svc" checksW 3).2 "db"
      CheckOutcome.timedOut (by simp [checksW]))).2.1 rfl
  · exact (((checkHealth_isolates_check_failures "svc" checksW 3).2 "redis"
      (CheckOutcome.completed none) (by simp [checksW]))).2.2 rfl

/-- Counterexample to C6 as stated: with maxAttempts = 1 and an operation
that always fails with a non-retryable error, the single attempt is also the
last one, so the loop breaks before the retryability check and `Retry`
returns the "max retry attempts (1) exceeded" wrapper — not the operation's
error itself as the claim requires for every maxAttempts ≥ 1. -/
theorem retry_nonretryable_maxAttempts_one_counterexample :
    Retry rcOne (fun _ => some (GoError.errorf "boom")) =
      (RetryOutcome.exceeded 1 (some (GoError.errorf "boom")), 1) ∧
    IsRetryableError rcOne (GoError.errorf "boom") = false ∧
    Retry rcOne (fun _ => some (GoError.errorf "boom")) ≠
      (RetryOutcome.failed (GoError.errorf "boom"), 1) := by
  refine ⟨rfl, rfl, ?_⟩
  intro h
  exact absurd (congrArg Prod.fst h) (by decide)

/-- Claim C6 (amended): when the first invocation returns an error that is
not classified retryable, `Retry` performs exactly 1 invocation; for every
maxAttempts ≥ 2 it returns that error itself, while for maxAttempts = 1
(the single attempt being the last) it returns the error wrapped in the
"max retry attempts exceeded" error instead. -/
theorem retry_nonretryable_returns_after_one_invocation
    (rc : RetryConfig) (fn : Nat → Option GoError) (e : GoError)
    (hfn : fn 0 = some e) (hnr : IsRetryableError rc e = false) :
    (2 ≤ rc.maxAttempts → Retry rc fn = (RetryOutcome.failed e, 1)) ∧
    (rc.maxAttempts = 1 →
      Retry rc fn = (RetryOutcome.exceeded 1 (some e), 1)) := by
  constructor
  · intro h2
    have htn : 2 ≤ rc.maxAttempts.toNat := by omega
    obtain ⟨m, hm⟩ : ∃ m, rc.maxAttempts.toNat = m + 2 :=
      ⟨rc.maxAttempts.toNat - 2, by omega⟩
    unfold Retry
    rw [hm]
    simp [retryLoop, hfn, hnr]
  · intro h1
    have htn : rc.maxAttempts.toNat = 1 := by omega
    unfold Retry
    rw [htn]
    simp [retryLoop, hfn, h1]

/-- Witness for C6 (amended): the default config (3 attempts) hands a
400-status error straight back after one invocation; the 1-attempt config
wraps it. -/
theorem retry_nonretryable_returns_after_one_invocation_witness :
    Retry DefaultRetryConfig
        (fun _ => some (GoError.retryable 400 "Bad Request")) =
      (RetryOutcome.failed (GoError.retryable 400 "Bad Request"), 1) ∧
    Retry rcOne (fun _ => some (GoError.retryable 400 "Bad Request")) =
      (RetryOutcome.exceeded 1 (some (GoError.retryable 400 "Bad Request")), 1) := by
  constructor
  · exact (retry_nonretryable_returns_after_one_invocation DefaultRetryConfig
      (fun _ => some (GoError.retryable 400 "Bad Request"))
      (GoError.retryable 400 "Bad Request") rfl rfl).1 (by decide)
  · exact (retry_nonretryable_returns_after_one_invocation rcOne
      (fun _ => some (GoError.retryable 400 "Bad Request"))
      (GoError.retryable 400 "Bad Request") rfl rfl).2 rfl

/-- Claim C7: exponential backoff at base 100ms and factor 2.0 yields
100ms, 200ms, 400ms, 800ms for attempts 0..3, and Fibonacci backoff at base
100ms yields 100ms, 100ms, 200ms, 300ms, 500ms, 800ms for attempts 0..5
(delays in nanoseconds, the unit of Go durations). -/
theorem backoff_strategy_sequences :
    ExponentialBackoff 0 100000000 2 = 100000000 ∧
    ExponentialBackoff 1 100000000 2 = 200000000 ∧
    ExponentialBackoff 2 100000000 2 = 400000000 ∧
    ExponentialBackoff 3 100000000 2 = 800000000 ∧
    FibonacciBackoff 0 100000000 = 100000000 ∧
    FibonacciBackoff 1 100000000 = 100000000 ∧
    FibonacciBackoff 2 100000000 = 200000000 ∧
    FibonacciBackoff 3 100000000 = 300000000 ∧
    FibonacciBackoff 4 100000000 = 500000000 ∧
    FibonacciBackoff 5 100000000 = 800000000 := by
  refine ⟨?_, ?_, ?_, ?_, ?_, ?_, ?_, ?_, ?_, ?_⟩ <;>
    norm_num [ExponentialBackoff, FibonacciBackoff, durationOfFloat, fibIter]

/-- Counterexample to C8 as stated: `SetUserID` assigns the field through
the shared `*CorrelationContext` pointer, so after the call the user ID read
through the ORIGINAL context equals the newly set value (here "u") instead
of its pre-call value "" — the originating correlation context is mutated
in place, not left unchanged. -/
theorem setUserID_mutates_originating_context_counterexample :
    GetUserID corrHeap0 ctx0 = "" ∧
    GetUserID (SetUserID corrHeap0 ctx0 "u").1 ctx0 = "u" ∧
    GetUserID (SetUserID corrHeap0 ctx0 "u").1 ctx0 ≠ GetUserID corrHeap0 ctx0 := by
  refine ⟨rfl, rfl, ?_⟩
  intro h
  simp [GetUserID, SetUserID, updateHeap, corrHeap0, ctx0] at h

/-- Claim C8 (amended): when a correlation context is attached, the
user-ID/session-ID setters write exactly that one field through the shared
pointer (other fields of the cell and all other heap cells are untouched)
and return a context carrying the same pointer, so the new value is visible
through the returned context AND through the originating one (the
originating correlation context is mutated in place); when no correlation
context is attached, a setter is a no-op returning the original heap and
context unchanged, not an error. -/
theorem setters_update_context_through_shared_pointer
    (h : Nat → CorrelationContext) (ctx : GoContext) (uid sid : String) :
    (ctx.corrAddr = none →
      SetUserID h ctx uid = (h, ctx) ∧ SetSessionID h ctx sid = (h, ctx)) ∧
    (∀ a, ctx.corrAddr = some a →
      ((SetUserID h ctx uid).2 = ctx ∧
       (SetUserID h ctx uid).1 a = { h a with userID := uid } ∧
       (∀ n, n ≠ a → (SetUserID h ctx uid).1 n = h n) ∧
       GetUserID (SetUserID h ctx uid).1 (SetUserID h ctx uid).2 = uid ∧
       GetUserID (SetUserID h ctx uid).1 ctx = uid) ∧
      ((SetSessionID h ctx sid).2 = ctx ∧
       (SetSessionID h ctx sid).1 a = { h a with sessionID := sid } ∧
       (∀ n, n ≠ a → (SetSessionID h ctx sid).1 n = h n) ∧
       GetSessionID (SetSessionID h ctx sid).1 (SetSessionID h ctx sid).2 = sid ∧
       GetSessionID (SetSessionID h ctx sid).1 ctx = sid)) := by
  constructor
  · intro hnone
    constructor <;> simp [SetUserID, SetSessionID, hnone]
  · intro a ha
    have hctx : ctx = { corrAddr := some a } := by
      cases ctx
      simp at ha
      simp [ha]
    subst hctx
    refine ⟨⟨rfl, ?_, ?_, ?_, ?_⟩, ⟨rfl, ?_, ?_, ?_, ?_⟩⟩ <;>
      simp [SetUserID, SetSessionID, GetUserID, GetSessionID, updateHeap]
    · intro n hn
      simp [hn]
    · intro n hn
      simp [hn]

/-- Witness for C8 (amended): with no attached context the setter is a
no-op; with the fixture heap and context, the user ID set through the shared
pointer is visible through the originating context. -/
theorem setters_update_context_through_shared_pointer_witness :
    SetUserID corrHeap0 ctxNone "u" = (corrHeap0, ctxNone) ∧
    GetUserID (SetUserID corrHeap0 ctx0 "u").1 ctx0 = "u" := by
  constructor
  · exact ((setters_update_context_through_shared_pointer corrHeap0 ctxNone
      "u" "s").1 rfl).1
  · exact (((setters_update_context_through_shared_pointer corrHeap0 ctx0
      "u" "s").2 0 rfl).1).2.2.2.2

/-- Counterexample to C9 as stated: on an input longer than 64 characters,
`SanitizeCorrelationID` returns the first 64 bytes plus "..." WITHOUT
stripping, so a leading '@' (a character outside [A-Za-z0-9_-], which the
claim says is always stripped) survives in the output. -/
theorem sanitize_skips_stripping_on_long_input_counterexample :
    SanitizeCorrelationID (String.mk ('@' :: List.replicate 64 'a')) =
      String.mk ('@' :: List.replicate 63 'a') ++ "..." ∧
    allowedChar '@' = false ∧
    '@' ∈ (SanitizeCorrelationID
      (String.mk ('@' :: List.replicate 64 'a'))).toList := by
  refine ⟨by decide, rfl, by decide⟩

/-- Claim C9 (amended): inputs of at most 64 characters are stripped of
every character outside [A-Za-z0-9_-] (and stay within 64 characters,
without truncation); inputs longer than 64 characters are truncated to
their first 64 characters plus the "..." marker, without stripping. In
particular a 70-character identifier becomes its first 64 characters plus
the marker, and `test@correlation#id$123` has `@#$` stripped while
alphanumerics, `-` and `_` are preserved. -/
theorem sanitize_strips_short_and_truncates_long (s : String) :
    (s.length ≤ 64 →
      (SanitizeCorrelationID s).toList = s.toList.filter allowedChar ∧
      (SanitizeCorrelationID s).length ≤ 64) ∧
    (64 < s.length →
      SanitizeCorrelationID s = String.mk (s.toList.take 64) ++ "...") ∧
    SanitizeCorrelationID (String.mk (List.replicate 70 'a')) =
      String.mk (List.replicate 64 'a') ++ "..." ∧
    SanitizeCorrelationID "test@correlation#id$123" = "testcorrelationid123" := by
  refine ⟨?_, ?_, by decide, by decide⟩
  · intro hle
    by_cases hempty : s = ""
    · subst hempty
      exact ⟨rfl, by decide⟩
    · have hgt : ¬ s.length > 64 := by omega
      have hval : SanitizeCorrelationID s =
          String.mk (s.toList.filter allowedChar) := by
        simp [SanitizeCorrelationID, hempty, hgt]
      constructor
      · rw [hval]
        rfl
      · rw [hval]
        have hlen : (String.mk (s.toList.filter allowedChar)).length =
            (s.toList.filter allowedChar).length := rfl
        have hfil : (s.toList.filter allowedChar).length ≤ s.toList.length :=
          List.length_filter_le _ _
        have hsl : s.toList.length = s.length := rfl
        omega
  · intro hgt
    have hempty : ¬ s = "" := by
      intro h
      subst h
      simp [String.length] at hgt
    simp [SanitizeCorrelationID, hempty, hgt]

/-- Witness for C9 (amended): a short identifier with invalid characters is
stripped without truncation; a 70-character identifier is truncated with the
marker. -/
theorem sanitize_strips_short_and_truncates_long_witness :
    (SanitizeCorrelationID "test@correlation#id$123").toList =
      "test@correlation#id$123".toList.filter allowedChar ∧
    SanitizeCorrelationID (String.mk (List.replicate 70 'a')) =
      String.mk ((String.mk (List.replicate 70 'a')).toList.take 64) ++ "..." := by
  constructor
  · exact ((sanitize_strips_short_and_truncates_long
      "test@correlation#id$123").1 (by decide)).1
  · exact (sanitize_strips_short_and_truncates_long
      (String.mk (List.replicate 70 'a'))).2.1 (by decide)

lemma resolveCheck_name (nm : String) (oc : CheckOutcome) (now : Int) :
    (resolveCheck nm oc now).name = nm := by
  cases oc with
  | completed r => cases r <;> rfl
  | timedOut => rfl

lemma resolveCheck_timestamp_ne_zero (nm : String) (oc : CheckOutcome)
    (now : Int) (hnow : now ≠ 0) : (resolveCheck nm oc now).timestamp ≠ 0 := by
  cases oc with
  | completed r =>
    cases r with
    | none => exact hnow
    | some d =>
      by_cases h : d.timestamp = 0
      · simpa [resolveCheck, h] using hnow
      · simpa [resolveCheck, h] using h
  | timedOut => exact hnow

lemma filter_key_length_one {α β : Type} [DecidableEq α]
    (l : List (α × β)) (nm : α) (hnd : (l.map Prod.fst).Nodup)
    (hm : nm ∈ l.map Prod.fst) :
    (l.filter (fun p => p.1 == nm)).length = 1 := by
  induction l with
  | nil => simp at hm
  | cons p tl ih =>
    rw [List.map_cons, List.nodup_cons] at hnd
    obtain ⟨hp, htl⟩ := hnd
    by_cases he : p.1 = nm
    · subst he
      have hnil : tl.filter (fun q => q.1 == p.1) = [] := by
        rw [List.filter_eq_nil_iff]
        intro q hq
        simp only [beq_iff_eq]
        intro he'
        exact hp (he' ▸ List.mem_map_of_mem Prod.fst hq)
      simp [List.filter_cons, hnil]
    · have hm' : nm ∈ tl.map Prod.fst := by
        rw [List.map_cons, List.mem_cons] at hm
        exact hm.resolve_left (fun h => he h.symm)
      have hne : (p.1 == nm) = false := beq_false_of_ne he
      simp only [List.filter_cons, hne, if_neg]
      simpa using ih htl hm'

/-- Claim C10: every snapshot is complete and consistent: the dependencies
map holds exactly one record per registered check, keyed and named by the
registration name, with a non-zero timestamp; total_checks equals the
number of registered checks; and each healthy/degraded/unhealthy count
equals the number of dependency records with that status. -/
theorem checkHealth_snapshot_complete_and_consistent (sn : String)
    (checks : List (String × CheckOutcome)) (now : Int)
    (hnow : now ≠ 0) (hnd : (checks.map Prod.fst).Nodup) :
    (CheckHealth sn checks now).dependencies.map Prod.fst =
      checks.map Prod.fst ∧
    (∀ p ∈ (CheckHealth sn checks now).dependencies,
      p.2.name = p.1 ∧ p.2.timestamp ≠ 0) ∧
    (CheckHealth sn checks now).totalChecks = checks.length ∧
    (CheckHealth sn checks now).healthyCount =
      (CheckHealth sn checks now).dependencies.countP
        (fun p => p.2.status == HealthStatus.healthy) ∧
    (CheckHealth sn checks now).degradedCount =
      (CheckHealth sn checks now).dependencies.countP
        (fun p => p.2.status == HealthStatus.degraded) ∧
    (CheckHealth sn checks now).unhealthyCount =
      (CheckHealth sn checks now).dependencies.countP
        (fun p => p.2.status == HealthStatus.unhealthy) ∧
    (∀ nm ∈ checks.map Prod.fst,
      ((CheckHealth sn checks now).dependencies.filter
        (fun p => p.1 == nm)).length = 1) := by
  have hdeps : (CheckHealth sn checks now).dependencies =
      checks.map (fun p => (p.1, resolveCheck p.1 p.2 now)) := rfl
  have hkeys : (CheckHealth sn checks now).dependencies.map Prod.fst =
      checks.map Prod.fst := by
    rw [hdeps, List.map_map]
    rfl
  refine ⟨hkeys, ?_, rfl, ?_, ?_, ?_, ?_⟩
  · intro p hp
    rw [hdeps] at hp
    obtain ⟨a, _, rfl⟩ := List.mem_map.mp hp
    exact ⟨resolveCheck_name a.1 a.2 now,
      resolveCheck_timestamp_ne_zero a.1 a.2 now hnow⟩
  · exact (List.countP_eq_length_filter _ _).symm
  · exact (List.countP_eq_length_filter _ _).symm
  · exact (List.countP_eq_length_filter _ _).symm
  · intro nm hm
    exact filter_key_length_one _ nm (hkeys ▸ hnd) (hkeys ▸ hm)

/-- Witness for C10 on a concrete three-check registry (timeout, nil result
and completed result) at instant 3. -/
theorem checkHealth_snapshot_complete_and_consistent_witness :
    (CheckHealth "svc" checksW3 3).dependencies.map Prod.fst =
      checksW3.map Prod.fst ∧
    (CheckHealth "svc" checksW3 3).totalChecks = 3 ∧
    ((CheckHealth "svc" checksW3 3).dependencies.filter
      (fun p => p.1 == "db")).length = 1 := by
  obtain ⟨h1, _, h3, _, _, _, h7⟩ :=
    checkHealth_snapshot_complete_and_consistent "svc" checksW3 3
      (by decide) (by decide)
  exact ⟨h1, by rw [h3]; rfl, h7 "db" (by decide)⟩

end Middleware
